import Mathlib

/-!
Verification development for minicel (src/main.c): a shallow embedding of
the expression arena, the formula parser, the table model and the
memoizing, cycle-detecting evaluator, together with theorems settling the
specification claims.

Modelling conventions:
* C strings / `String_View` values are `List Char`; `sv` cursor mutation is
  explicit state passing (each operation returns the remaining input).
* `double` values are modelled exactly as rationals (`Rat`); the claims only
  involve small integer-valued constants, on which IEEE double arithmetic is
  exact.
* `exit(1)` / failed `assert` become `Except` errors; the recursion of the
  mutually recursive evaluator is bounded by explicit fuel (the C program's
  call stack), with `EvalError.outOfFuel` marking exhaustion.
-/

/-- Models C `isspace` in the C locale (space, \t, \n, \v, \f, \r). -/
def c_isspace (c : Char) : Bool :=
  c = ' ' ∨ c = '\t' ∨ c = '\n' ∨ c = Char.ofNat 11 ∨ c = Char.ofNat 12 ∨ c = '\r'

/-- Models C `isdigit`. -/
def c_isdigit (c : Char) : Bool :=
  '0' ≤ c ∧ c ≤ '9'

/-- Models C `isupper` in the C locale: an uppercase ASCII letter. -/
def c_isupper (c : Char) : Bool :=
  'A' ≤ c ∧ c ≤ 'Z'

/-- Models C `isalnum` in the C locale: ASCII letter or decimal digit. -/
def c_isalnum (c : Char) : Bool :=
  c_isdigit c ∨ c_isupper c ∨ ('a' ≤ c ∧ c ≤ 'z')

/-- Models `is_name` from main.c: `isalnum(c) || c == '_'`. -/
def is_name (c : Char) : Bool :=
  c_isalnum c ∨ c = '_'

/-- Models `sv_trim_left`: drop leading whitespace. -/
def sv_trim_left (s : List Char) : List Char :=
  s.dropWhile c_isspace

/-- Models `sv_trim_right`: drop trailing whitespace. -/
def sv_trim_right (s : List Char) : List Char :=
  (s.reverse.dropWhile c_isspace).reverse

/-- Models `sv_trim`: drop whitespace on both sides. -/
def sv_trim (s : List Char) : List Char :=
  sv_trim_right (sv_trim_left s)

/-- Numeric value of a run of decimal digit characters. -/
def digitsVal (ds : List Char) : Nat :=
  ds.foldl (fun a c => a * 10 + (c.toNat - 48)) 0

/-- Rational power of ten with an integer exponent (used for `strtod` exponents). -/
def qpow10 (e : Int) : Rat :=
  if 0 ≤ e then (10 : Rat) ^ e.toNat else 1 / (10 : Rat) ^ (-e).toNat

/-- Exponent part of a `strtod` literal: on `e`/`E` followed by an optional
sign and at least one digit it consumes the exponent, otherwise `strtod`
backs off and leaves the input where it was. Returns (exponent, rest). -/
def strtodExponent (s : List Char) : Int × List Char :=
  match s with
  | c :: rest =>
    if c = 'e' ∨ c = 'E' then
      let (es, rest1) : Int × List Char :=
        match rest with
        | '+' :: r => (1, r)
        | '-' :: r => (-1, r)
        | _ => (1, rest)
      let ds := rest1.takeWhile c_isdigit
      if ds = [] then (0, s)
      else (es * (digitsVal ds : Int), rest1.dropWhile c_isdigit)
    else (0, s)
  | [] => (0, s)

/-- Models `sv_strtod` from main.c: the view fully parses as a floating-point
literal (strtod consumed at least one character and stopped at the end)
iff the result is `some`. The model covers the decimal grammar
(optional sign, digits with optional fraction, optional exponent);
hexadecimal, infinity and NaN literal forms are outside the model, and the
double result is represented exactly as a rational. -/
def sv_strtod (s : List Char) : Option Rat :=
  let s0 := s.dropWhile c_isspace
  let (sgn, s1) : Rat × List Char :=
    match s0 with
    | '+' :: rest => (1, rest)
    | '-' :: rest => (-1, rest)
    | _ => (1, s0)
  let intPart := s1.takeWhile c_isdigit
  let s2 := s1.dropWhile c_isdigit
  let (fracPart, s3) : List Char × List Char :=
    match s2 with
    | '.' :: rest => (rest.takeWhile c_isdigit, rest.dropWhile c_isdigit)
    | _ => ([], s2)
  if intPart = [] ∧ fracPart = [] then none
  else
    let mant : Rat := (digitsVal (intPart ++ fracPart) : Rat) / (10 : Rat) ^ fracPart.length
    let (e, s4) := strtodExponent s3
    if s4 = [] then some (sgn * mant * qpow10 e) else none

/-- Models `sv_strtol` from main.c (base 10): the view fully parses as a long
integer iff the result is `some` (strtol consumed at least one digit and
stopped at the terminating NUL). -/
def sv_strtol (s : List Char) : Option Int :=
  let s0 := s.dropWhile c_isspace
  let (sgn, s1) : Int × List Char :=
    match s0 with
    | '+' :: rest => (1, rest)
    | '-' :: rest => (-1, rest)
    | _ => (1, s0)
  let ds := s1.takeWhile c_isdigit
  if ds = [] then none
  else if s1.dropWhile c_isdigit ≠ [] then none
  else some (sgn * (digitsVal ds : Int))

/-- Models the C cast `(size_t) row` on a 64-bit target. -/
def size_t_of_long (i : Int) : Nat :=
  (i % (2 ^ 64 : Int)).toNat

abbrev Expr_Index := Nat

/-- Models `Expr` from main.c: a tagged union of a number, a cell reference
`(row, col)`, or an addition whose operands are arena indices. -/
inductive Expr where
  | number (v : Rat)
  | cell (row col : Nat)
  | plus (lhs rhs : Expr_Index)
deriving DecidableEq, Repr

/-- Models `Expr_Buffer` from main.c: `items` has length `capacity`; a slot is
`none` while its bytes are indeterminate (freshly `realloc`-ed, never
written) and `some e` once the parser has stored the node `e` in it. -/
structure Expr_Buffer where
  count : Nat
  capacity : Nat
  items : List (Option Expr)
deriving DecidableEq, Repr

/-- Models `expr_buffer_alloc`: when `count` has reached `capacity`, grow
capacity (to 128 from 0, else doubling) and `realloc`, which preserves the
old slots and leaves the new region indeterminate; then return the old
`count` as the fresh index and increment `count`. The fresh slot itself is
not written. -/
def expr_buffer_alloc (eb : Expr_Buffer) : Expr_Index × Expr_Buffer :=
  if eb.capacity ≤ eb.count then
    let newCap := if eb.capacity = 0 then 128 else eb.capacity * 2
    let newItems := eb.items ++ List.replicate (newCap - eb.items.length) none
    (eb.count, ⟨eb.count + 1, newCap, newItems⟩)
  else
    (eb.count, ⟨eb.count + 1, eb.capacity, eb.items⟩)

/-- Models a write through `expr_buffer_at` (the parser's
`memset(expr, 0, ...)` followed by field assignments ends with the slot
holding exactly the node `e`). -/
def expr_buffer_set (eb : Expr_Buffer) (i : Expr_Index) (e : Expr) : Expr_Buffer :=
  ⟨eb.count, eb.capacity, eb.items.set i (some e)⟩

/-- Models a read through `expr_buffer_at`: the `assert(index < count)` makes
out-of-range access fatal (`none`); an in-range but never-written slot is
also `none` (indeterminate bytes). -/
def expr_buffer_at (eb : Expr_Buffer) (i : Expr_Index) : Option Expr :=
  if i < eb.count then (eb.items.get? i).join else none

/-- Expression whose bytes are all zero, as produced by the callers'
`memset(expr, 0, sizeof(Expr))`: kind `EXPR_KIND_NUMBER` (= 0) and value `0.0`. -/
def zeroExpr : Expr := Expr.number 0

/-- Fatal load-time errors of the parser (`exit(1)` sites in main.c). -/
inductive ParseError where
  | lexError (c : Char)
  | eofError
  | colNotUpper
  | rowNotInt
deriving DecidableEq, Repr

/-- Models `next_token`: trim the cursor, return `none` at end of input,
consume `+` as a one-character token, else consume a maximal `is_name` run,
else fail with a lexical error naming the offending character. Returns the
token together with the remaining cursor. -/
def next_token (source : List Char) : Except ParseError (Option (List Char) × List Char) :=
  match sv_trim source with
  | [] => .ok (none, [])
  | c :: cs =>
    if c = '+' then .ok (some [c], cs)
    else if is_name c then
      .ok (some ((c :: cs).takeWhile is_name), (c :: cs).dropWhile is_name)
    else .error (.lexError c)

theorem length_dropWhile_le (p : Char → Bool) (l : List Char) :
    (l.dropWhile p).length ≤ l.length :=
  (List.dropWhile_sublist p).length_le

theorem sv_trim_length_le (s : List Char) : (sv_trim s).length ≤ s.length := by
  unfold sv_trim sv_trim_right sv_trim_left
  calc ((s.dropWhile c_isspace).reverse.dropWhile c_isspace).reverse.length
      = ((s.dropWhile c_isspace).reverse.dropWhile c_isspace).length :=
        List.length_reverse _
    _ ≤ (s.dropWhile c_isspace).reverse.length := length_dropWhile_le _ _
    _ = (s.dropWhile c_isspace).length := List.length_reverse _
    _ ≤ s.length := length_dropWhile_le _ _

theorem next_token_rest_le (source rest : List Char)
    (tok : Option (List Char))
    (h : next_token source = .ok (tok, rest)) : rest.length ≤ source.length := by
  have htrim := sv_trim_length_le source
  unfold next_token at h
  revert h
  cases hs : sv_trim source with
  | nil =>
    intro h
    simp at h
    rw [h.2]
    simp
  | cons c cs =>
    rw [hs] at htrim
    simp at htrim
    intro h
    by_cases hp : c = '+'
    · simp [hp] at h
      have : rest = cs := h.2.symm
      simp [this]; omega
    · by_cases hn : is_name c
      · simp [hp, hn] at h
        have hr : rest = cs.dropWhile is_name := h.2.symm
        have : (cs.dropWhile is_name).length ≤ cs.length :=
          length_dropWhile_le _ _
        rw [hr]
        omega
      · simp [hp, hn] at h

theorem next_token_some_rest_lt (source rest : List Char) (tok : List Char)
    (h : next_token source = .ok (some tok, rest)) : rest.length < source.length := by
  have htrim := sv_trim_length_le source
  unfold next_token at h
  revert h
  cases hs : sv_trim source with
  | nil => intro h; simp at h
  | cons c cs =>
    rw [hs] at htrim
    simp at htrim
    intro h
    by_cases hp : c = '+'
    · simp [hp] at h
      have : rest = cs := h.2.symm
      simp [this]; omega
    · by_cases hn : is_name c
      · simp [hp, hn] at h
        have hr : rest = cs.dropWhile is_name := h.2.symm
        have : (cs.dropWhile is_name).length ≤ cs.length :=
          length_dropWhile_le _ _
        rw [hr]
        omega
      · simp [hp, hn] at h

/-- Models `parse_primary_expr`: take the next token (end of input is a fatal
syntax error), allocate and zero a fresh arena slot, then store a `number`
node if the token fully parses as a floating-point literal, else a `cell`
node whose column is the first character (which must be an uppercase
letter) minus `'A'` and whose row is the remaining characters fully parsed
as a base-10 integer; any other shape is a fatal reference-shape error. -/
def parse_primary_expr (source : List Char) (eb : Expr_Buffer) :
    Except ParseError (Expr_Index × List Char × Expr_Buffer) :=
  match next_token source with
  | .error e => .error e
  | .ok (none, _) => .error .eofError
  | .ok (some tok, rest) =>
    let (idx, eb1) := expr_buffer_alloc eb
    match sv_strtod tok with
    | some v => .ok (idx, rest, expr_buffer_set eb1 idx (.number v))
    | none =>
      match tok with
      | [] => .error .eofError
      | c :: tokRest =>
        if c_isupper c then
          match sv_strtol tokRest with
          | some row =>
            .ok (idx, rest,
              expr_buffer_set eb1 idx (.cell (size_t_of_long row) (c.toNat - 'A'.toNat)))
          | none => .error .rowNotInt
        else .error .colNotUpper

theorem parse_primary_rest_lt (source s1 : List Char) (eb eb1 : Expr_Buffer)
    (i : Expr_Index)
    (h : parse_primary_expr source eb = .ok (i, s1, eb1)) :
    s1.length < source.length := by
  unfold parse_primary_expr at h
  revert h
  cases ht : next_token source with
  | error e => intro h; simp at h
  | ok p =>
    obtain ⟨tok, rest⟩ := p
    cases tok with
    | none => intro h; simp at h
    | some t =>
      intro h
      have hlt := next_token_some_rest_lt source rest t ht
      simp at h
      cases hv : sv_strtod t with
      | some v =>
        simp [hv] at h
        rw [h.2.1] at hlt
        exact hlt
      | none =>
        rw [hv] at h
        cases t with
        | nil => simp at h
        | cons c tr =>
          by_cases hu : c_isupper c
          · cases hrow : sv_strtol tr with
            | some row =>
              simp [hu, hrow] at h
              rw [h.2.1] at hlt
              exact hlt
            | none => simp [hu, hrow] at h
          · simp [hu] at h

/-- Recursion core of `parse_plus_expr`, structurally bounded: the bound is a
strict upper bound on the cursor length and each recursive call happens on
a strictly shorter cursor, so the `0` case is never reached (its result is
arbitrary). -/
def parsePlusAux : Nat → List Char → Expr_Buffer →
    Except ParseError (Expr_Index × List Char × Expr_Buffer)
  | 0, _, _ => .error .eofError
  | bound + 1, source, eb =>
    match parse_primary_expr source eb with
    | .error e => .error e
    | .ok (lhs, s1, eb1) =>
      match next_token s1 with
      | .error e => .error e
      | .ok (tok, s2) =>
        if tok = some ['+'] then
          match parsePlusAux bound s2 eb1 with
          | .error e => .error e
          | .ok (rhs, s3, eb2) =>
            let (idx, eb3) := expr_buffer_alloc eb2
            .ok (idx, s3, expr_buffer_set eb3 idx (.plus lhs rhs))
        else .ok (lhs, s2, eb1)

/-- Models `parse_plus_expr`: parse one primary; then take the next token —
if it is present and equals `+`, recursively parse the rest as a plus
expression, allocate a fresh `plus` node combining the two, and return it;
otherwise return the primary's index alone (the cursor has already moved
past the inspected token). The recursion equation is
`parse_plus_expr_eq` below. -/
def parse_plus_expr (source : List Char) (eb : Expr_Buffer) :
    Except ParseError (Expr_Index × List Char × Expr_Buffer) :=
  parsePlusAux (source.length + 1) source eb

theorem parsePlusAux_bound_irrel :
    ∀ n m (source : List Char) (eb : Expr_Buffer), source.length < n →
      source.length < m → parsePlusAux n source eb = parsePlusAux m source eb := by
  intro n
  induction n with
  | zero => intro m source eb hn; exact absurd hn (Nat.not_lt_zero _)
  | succ n ih =>
    intro m source eb hn hm
    cases m with
    | zero => exact absurd hm (Nat.not_lt_zero _)
    | succ m =>
      cases hp : parse_primary_expr source eb with
      | error e => simp [parsePlusAux, hp]
      | ok r =>
        obtain ⟨lhs, s1, eb1⟩ := r
        have hs1 := parse_primary_rest_lt source s1 eb eb1 lhs hp
        cases hnx : next_token s1 with
        | error e => simp [parsePlusAux, hp, hnx]
        | ok q =>
          obtain ⟨tok, s2⟩ := q
          have hs2 := next_token_rest_le s1 s2 tok hnx
          by_cases htok : tok = some ['+']
          · have hrec : parsePlusAux n s2 eb1 = parsePlusAux m s2 eb1 :=
              ih m s2 eb1 (by omega) (by omega)
            simp [parsePlusAux, hp, hnx, htok, hrec]
          · simp [parsePlusAux, hp, hnx, htok]

theorem parse_plus_expr_eq (source : List Char) (eb : Expr_Buffer) :
    parse_plus_expr source eb =
      match parse_primary_expr source eb with
      | .error e => .error e
      | .ok (lhs, s1, eb1) =>
        match next_token s1 with
        | .error e => .error e
        | .ok (tok, s2) =>
          if tok = some ['+'] then
            match parse_plus_expr s2 eb1 with
            | .error e => .error e
            | .ok (rhs, s3, eb2) =>
              let (idx, eb3) := expr_buffer_alloc eb2
              .ok (idx, s3, expr_buffer_set eb3 idx (.plus lhs rhs))
          else .ok (lhs, s2, eb1)
  := by
  show parsePlusAux (source.length + 1) source eb = _
  cases hp : parse_primary_expr source eb with
  | error e => simp [parsePlusAux, hp]
  | ok r =>
    obtain ⟨lhs, s1, eb1⟩ := r
    have hs1 := parse_primary_rest_lt source s1 eb eb1 lhs hp
    cases hnx : next_token s1 with
    | error e => simp [parsePlusAux, hp, hnx]
    | ok q =>
      obtain ⟨tok, s2⟩ := q
      have hs2 := next_token_rest_le s1 s2 tok hnx
      by_cases htok : tok = some ['+']
      · have hrec : parsePlusAux source.length s2 eb1 = parsePlusAux (s2.length + 1) s2 eb1 :=
          parsePlusAux_bound_irrel source.length (s2.length + 1) s2 eb1 (by omega) (by omega)
        unfold parse_plus_expr
        simp [parsePlusAux, hp, hnx, htok, hrec]
      · simp [parse_plus_expr, parsePlusAux, hp, hnx, htok]

/-- Models `parse_expr`: the parser's entry point is `parse_plus_expr`. -/
def parse_expr (source : List Char) (eb : Expr_Buffer) :
    Except ParseError (Expr_Index × List Char × Expr_Buffer) :=
  parse_plus_expr source eb

/-- Models `Eval_Status` from main.c. -/
inductive Eval_Status where
  | unevaluated
  | inprogress
  | evaluated
deriving DecidableEq, Repr

/-- Models `Cell` from main.c: a tagged union of literal text, a number, or a
formula (`CELL_KIND_EXPR`) holding an arena index, an evaluation status and
the cached value. -/
inductive Cell where
  | text (s : List Char)
  | number (v : Rat)
  | expr (index : Expr_Index) (status : Eval_Status) (value : Rat)
deriving DecidableEq, Repr

/-- Models `Table` from main.c: a row-major grid of cells. -/
structure Table where
  cells : List Cell
  rows : Nat
  cols : Nat
deriving DecidableEq, Repr

/-- Models `table_cell_at`: the two `assert`s make access with `row ≥ rows` or
`col ≥ cols` fatal (`none`); otherwise the cell at row-major index
`row * cols + col`. -/
def table_cell_at (table : Table) (row col : Nat) : Option Cell :=
  if row < table.rows ∧ col < table.cols then
    table.cells.get? (row * table.cols + col)
  else none

/-- Models a write through the pointer returned by `table_cell_at`. -/
def table_set_cell (table : Table) (row col : Nat) (cell : Cell) : Table :=
  ⟨table.cells.set (row * table.cols + col) cell, table.rows, table.cols⟩

/-- Fatal evaluation-time errors (`exit(1)` and failed `assert` sites in
main.c), plus `outOfFuel` marking exhaustion of the explicit recursion
bound that stands in for the C call stack. -/
inductive EvalError where
  | typeError
  | circularDep
  | outOfRange
  | invalidIndex
  | outOfFuel
deriving DecidableEq, Repr

mutual

/-- Models `table_eval_expr`: a number node yields its value; a cell-reference
node looks the cell up (bounds-checked) and yields a number cell's value,
fails fatally on a text cell, and on a formula cell delegates to
`table_eval_cell` and then reads the cached value back through the cell
pointer; a plus node evaluates its left then its right operand and returns
the sum. State (the formula cells' status and cache) is threaded through. -/
def table_eval_expr : Nat → Table → Expr_Buffer → Expr_Index →
    Except EvalError (Rat × Table)
  | 0, _, _, _ => .error .outOfFuel
  | fuel + 1, table, eb, exprIndex =>
    match expr_buffer_at eb exprIndex with
    | none => .error .invalidIndex
    | some (.number v) => .ok (v, table)
    | some (.cell row col) =>
      match table_cell_at table row col with
      | none => .error .outOfRange
      | some (.number v) => .ok (v, table)
      | some (.text _) => .error .typeError
      | some (.expr _ _ _) =>
        match table_eval_cell fuel table eb row col with
        | .error e => .error e
        | .ok table1 =>
          match table_cell_at table1 row col with
          | some (.expr _ _ v) => .ok (v, table1)
          | _ => .error .outOfRange
    | some (.plus lhs rhs) =>
      match table_eval_expr fuel table eb lhs with
      | .error e => .error e
      | .ok (lhsVal, table1) =>
        match table_eval_expr fuel table1 eb rhs with
        | .error e => .error e
        | .ok (rhsVal, table2) => .ok (lhsVal + rhsVal, table2)

/-- Models `table_eval_cell`: a no-op on non-formula cells; on a formula cell,
status `INPROGRESS` is a fatal circular-dependency error, status
`UNEVALUATED` is set to `INPROGRESS`, the cell's expression is evaluated,
the result cached and the status set to `EVALUATED`, and status
`EVALUATED` is a no-op (the cached value is kept). The cell is named by
its coordinates; the returned table carries the mutations. -/
def table_eval_cell : Nat → Table → Expr_Buffer → Nat → Nat →
    Except EvalError Table
  | 0, _, _, _, _ => .error .outOfFuel
  | fuel + 1, table, eb, row, col =>
    match table_cell_at table row col with
    | none => .error .outOfRange
    | some (.text _) => .ok table
    | some (.number _) => .ok table
    | some (.expr exprIndex status value) =>
      match status with
      | .inprogress => .error .circularDep
      | .evaluated => .ok table
      | .unevaluated =>
        match table_eval_expr fuel
            (table_set_cell table row col (.expr exprIndex .inprogress value)) eb exprIndex with
        | .error e => .error e
        | .ok (result, table2) =>
          .ok (table_set_cell table2 row col (.expr exprIndex .evaluated result))

end

deriving instance DecidableEq for Except

/-- Arena produced by parsing a single formula into a fresh buffer (as the
loader does for a one-formula table); the error fallback is never taken in
the concrete examples below. -/
def parsedArena (source : List Char) : Expr_Buffer :=
  match parse_expr source ⟨0, 0, []⟩ with
  | .ok (_, _, eb) => eb
  | .error _ => ⟨0, 0, []⟩

/-- Root index returned by parsing a single formula into a fresh buffer. -/
def parsedRoot (source : List Char) : Expr_Index :=
  match parse_expr source ⟨0, 0, []⟩ with
  | .ok (i, _, _) => i
  | .error _ => 0

theorem table_set_cell_rows (t : Table) (r c : Nat) (cell : Cell) :
    (table_set_cell t r c cell).rows = t.rows := rfl

theorem table_set_cell_cols (t : Table) (r c : Nat) (cell : Cell) :
    (table_set_cell t r c cell).cols = t.cols := rfl

theorem table_set_cell_length (t : Table) (r c : Nat) (cell : Cell) :
    (table_set_cell t r c cell).cells.length = t.cells.length := by
  simp [table_set_cell]

/-- Shape preservation: one evaluation pass never changes the table's bounds
or the number of cells, only the formula cells' status and cache. -/
theorem eval_preserves_shape (fuel : Nat) :
    (∀ t eb i v t', table_eval_expr fuel t eb i = .ok (v, t') →
      t'.rows = t.rows ∧ t'.cols = t.cols ∧ t'.cells.length = t.cells.length) ∧
    (∀ t eb r c t', table_eval_cell fuel t eb r c = .ok t' →
      t'.rows = t.rows ∧ t'.cols = t.cols ∧ t'.cells.length = t.cells.length) := by
  induction fuel with
  | zero =>
    constructor
    · intro t eb i v t' h; simp [table_eval_expr] at h
    · intro t eb r c t' h; simp [table_eval_cell] at h
  | succ fuel ih =>
    obtain ⟨ihExpr, ihCell⟩ := ih
    constructor
    · intro t eb i v t' h
      unfold table_eval_expr at h
      split at h
      · exact absurd h (by simp)
      · simp at h; rw [h.2]; exact ⟨rfl, rfl, rfl⟩
      · split at h
        · exact absurd h (by simp)
        · simp at h; rw [h.2]; exact ⟨rfl, rfl, rfl⟩
        · exact absurd h (by simp)
        · rename_i x1 row col hbuf x2 j st w hcl
          split at h
          · exact absurd h (by simp)
          · rename_i t1 heq
            split at h
            · simp at h
              rw [← h.2]
              exact ihCell t eb row col t1 heq
            · exact absurd h (by simp)
      · rename_i lhs rhs hbuf
        split at h
        · exact absurd h (by simp)
        · rename_i lv t1 heq1
          split at h
          · exact absurd h (by simp)
          · rename_i rv t2 heq2
            simp at h
            have s1 := ihExpr t eb lhs lv t1 heq1
            have s2 := ihExpr t1 eb rhs rv t2 heq2
            rw [← h.2]
            exact ⟨s2.1.trans s1.1, s2.2.1.trans s1.2.1, s2.2.2.trans s1.2.2⟩
    · intro t eb r c t' h
      unfold table_eval_cell at h
      split at h
      · exact absurd h (by simp)
      · simp at h; rw [← h]; exact ⟨rfl, rfl, rfl⟩
      · simp at h; rw [← h]; exact ⟨rfl, rfl, rfl⟩
      · rename_i j st w hcl
        split at h
        · exact absurd h (by simp)
        · simp at h; rw [← h]; exact ⟨rfl, rfl, rfl⟩
        · split at h
          · exact absurd h (by simp)
          · rename_i res t2 heq
            simp at h
            have s1 := ihExpr _ eb j res t2 heq
            rw [← h]
            refine ⟨?_, ?_, ?_⟩
            · rw [table_set_cell_rows, s1.1, table_set_cell_rows]
            · rw [table_set_cell_cols, s1.2.1, table_set_cell_cols]
            · rw [table_set_cell_length, s1.2.2, table_set_cell_length]

/-- Claim C6: out-of-range reference checking — `table_cell_at` is
bounds-checked: it yields no cell when `row ≥ rows` or `col ≥ cols` (the
`assert`s fail fatally), every successful lookup is within bounds, and a
`CellRef` to an out-of-range coordinate makes evaluation fail rather than
access a cell outside the grid. -/
theorem table_cell_at_bounds_checked :
    (∀ (t : Table) (r c : Nat), t.rows ≤ r ∨ t.cols ≤ c → table_cell_at t r c = none) ∧
    (∀ (t : Table) (r c : Nat) (cell : Cell), table_cell_at t r c = some cell →
      r < t.rows ∧ c < t.cols) ∧
    (∀ (fuel : Nat) (t : Table) (eb : Expr_Buffer) (i : Expr_Index) (r c : Nat),
      expr_buffer_at eb i = some (.cell r c) → (t.rows ≤ r ∨ t.cols ≤ c) →
      table_eval_expr (fuel + 1) t eb i = .error .outOfRange) := by
  have hnone : ∀ (t : Table) (r c : Nat), t.rows ≤ r ∨ t.cols ≤ c →
      table_cell_at t r c = none := by
    intro t r c hrc
    unfold table_cell_at
    rw [if_neg]
    rintro ⟨h1, h2⟩
    rcases hrc with h | h <;> omega
  refine ⟨hnone, ?_, ?_⟩
  · intro t r c cell h
    by_cases hb : r < t.rows ∧ c < t.cols
    · exact hb
    · unfold table_cell_at at h
      rw [if_neg hb] at h
      exact absurd h (by simp)
  · intro fuel t eb i r c hi hrc
    unfold table_eval_expr
    simp only [hi, hnone t r c hrc]

/-- Witness for C6 at concrete inputs: looking up row 1 of an empty table
fails, and evaluating a reference to row 5 of a 1×1 table is an
out-of-range error. -/
theorem table_cell_at_bounds_checked_witness :
    table_cell_at ⟨[], 0, 0⟩ 1 0 = none ∧
    table_eval_expr 1 ⟨[Cell.number 0], 1, 1⟩ ⟨1, 1, [some (Expr.cell 5 0)]⟩ 0 =
      .error .outOfRange :=
  ⟨table_cell_at_bounds_checked.1 ⟨[], 0, 0⟩ 1 0 (Or.inl (by decide)),
   table_cell_at_bounds_checked.2.2 0 ⟨[Cell.number 0], 1, 1⟩ ⟨1, 1, [some (Expr.cell 5 0)]⟩
     0 5 0 (by decide) (Or.inl (by decide))⟩

/-- Claim C8, counterexample: `expr_buffer_alloc` does not zero-initialize the
appended slot — on the first allocation from an empty buffer it returns
index 0, but the slot's bytes are the indeterminate contents of the fresh
`realloc` region (modelled `none`), not the all-zero expression; the
callers perform the `memset` themselves. -/
theorem expr_buffer_alloc_slot_uninitialized :
    (expr_buffer_alloc ⟨0, 0, []⟩).1 = 0 ∧
    (expr_buffer_alloc ⟨0, 0, []⟩).2.items.get? 0 = some none ∧
    expr_buffer_at (expr_buffer_alloc ⟨0, 0, []⟩).2 0 ≠ some zeroExpr := by
  decide

/-- Claim C8 (amended): each `expr_buffer_alloc` call appends one slot, whose
contents are indeterminate until the caller writes them, and returns its
index (the count of prior allocations); the backing storage grows
geometrically — from zero capacity to a nonzero initial size (128), then
doubling whenever the count has reached the capacity — and slot contents
at all existing indices are preserved across growth. -/
theorem expr_buffer_alloc_contract (eb : Expr_Buffer)
    (hlen : eb.items.length = eb.capacity) :
    (expr_buffer_alloc eb).1 = eb.count ∧
    (expr_buffer_alloc eb).2.count = eb.count + 1 ∧
    (expr_buffer_alloc eb).2.items.length = (expr_buffer_alloc eb).2.capacity ∧
    (eb.capacity ≤ eb.count →
      (expr_buffer_alloc eb).2.capacity = if eb.capacity = 0 then 128 else eb.capacity * 2) ∧
    (eb.count < eb.capacity → (expr_buffer_alloc eb).2.capacity = eb.capacity) ∧
    (∀ j, j < eb.items.length →
      (expr_buffer_alloc eb).2.items.get? j = eb.items.get? j) := by
  by_cases hc : eb.capacity ≤ eb.count
  · have hle : eb.items.length ≤ if eb.capacity = 0 then 128 else eb.capacity * 2 := by
      rw [hlen]
      by_cases h0 : eb.capacity = 0
      · simp [h0]
      · simp [h0]
        omega
    refine ⟨?_, ?_, ?_, ?_, ?_, ?_⟩
    · simp [expr_buffer_alloc, hc]
    · simp [expr_buffer_alloc, hc]
    · simp [expr_buffer_alloc, hc]
      omega
    · intro _; simp [expr_buffer_alloc, hc]
    · intro hlt; omega
    · intro j hj
      simp [expr_buffer_alloc, hc, List.getElem?_append_left hj]
  · refine ⟨?_, ?_, ?_, ?_, ?_, ?_⟩
    · simp [expr_buffer_alloc, hc]
    · simp [expr_buffer_alloc, hc]
    · simp [expr_buffer_alloc, hc, hlen]
    · intro h; exact absurd h hc
    · intro _; simp [expr_buffer_alloc, hc]
    · intro j hj; simp [expr_buffer_alloc, hc]

/-- Witness for C8 (amended) at the empty buffer: the first allocation
returns index 0, count becomes 1 and capacity 128. -/
theorem expr_buffer_alloc_contract_witness :
    (expr_buffer_alloc ⟨0, 0, []⟩).1 = 0 ∧
    (expr_buffer_alloc ⟨0, 0, []⟩).2.count = 0 + 1 ∧
    (expr_buffer_alloc ⟨0, 0, []⟩).2.items.length = (expr_buffer_alloc ⟨0, 0, []⟩).2.capacity ∧
    (0 ≤ 0 → (expr_buffer_alloc ⟨0, 0, []⟩).2.capacity = if 0 = 0 then 128 else 0 * 2) ∧
    (0 < 0 → (expr_buffer_alloc ⟨0, 0, []⟩).2.capacity = 0) ∧
    (∀ j, j < ([] : List (Option Expr)).length →
      (expr_buffer_alloc ⟨0, 0, []⟩).2.items.get? j = ([] : List (Option Expr)).get? j) :=
  expr_buffer_alloc_contract ⟨0, 0, []⟩ rfl

/-- Claim C5: text-in-arithmetic rejection — whenever a `CellRef` expression
resolves to a `Text` cell, evaluation fails with a fatal type error and
never returns a numeric value; in particular, with `A0 = "hello"` (text)
and `B0 = "=A0+1"`, evaluating `B0` fails with the type error. -/
theorem text_cell_in_arithmetic_fatal :
    (∀ (fuel : Nat) (t : Table) (eb : Expr_Buffer) (i : Expr_Index) (r c : Nat)
      (s : List Char), expr_buffer_at eb i = some (.cell r c) →
      table_cell_at t r c = some (.text s) →
      table_eval_expr (fuel + 1) t eb i = .error .typeError) ∧
    table_eval_cell 10
        ⟨[Cell.text "hello".toList, Cell.expr (parsedRoot "A0+1".toList) .unevaluated 0], 1, 2⟩
        (parsedArena "A0+1".toList) 0 1 =
      .error .typeError := by
  constructor
  · intro fuel t eb i r c s hi hc
    unfold table_eval_expr
    simp only [hi, hc]
  · decide

/-- Witness for C5 at a concrete table: a direct reference to a text cell is a
type error. -/
theorem text_cell_in_arithmetic_fatal_witness :
    table_eval_expr 1 ⟨[Cell.text ['x'], Cell.number 0], 1, 2⟩
      ⟨1, 1, [some (Expr.cell 0 0)]⟩ 0 = .error .typeError :=
  text_cell_in_arithmetic_fatal.1 0 ⟨[Cell.text ['x'], Cell.number 0], 1, 2⟩
    ⟨1, 1, [some (Expr.cell 0 0)]⟩ 0 0 0 ['x'] (by decide) (by decide)

/-- Claim C7: cell-reference shape — when the token does not fully parse as a
floating-point literal, the parser demands an uppercase first letter
(giving the zero-based column as the letter minus `'A'`) and a remainder
that fully parses as a base-10 integer (giving the row); a lowercase first
letter is the capital-letter error, a non-integer remainder is the
row-number error, and in particular `"a1"` fails with the reference-shape
error. -/
theorem cellref_shape :
    (∀ (source rest : List Char) (eb : Expr_Buffer) (c : Char) (tr : List Char),
      next_token source = .ok (some (c :: tr), rest) →
      sv_strtod (c :: tr) = none → c_isupper c = false →
      parse_primary_expr source eb = .error .colNotUpper) ∧
    (∀ (source rest : List Char) (eb : Expr_Buffer) (c : Char) (tr : List Char),
      next_token source = .ok (some (c :: tr), rest) →
      sv_strtod (c :: tr) = none → c_isupper c = true → sv_strtol tr = none →
      parse_primary_expr source eb = .error .rowNotInt) ∧
    (∀ (source rest : List Char) (eb : Expr_Buffer) (c : Char) (tr : List Char)
      (row : Int),
      next_token source = .ok (some (c :: tr), rest) →
      sv_strtod (c :: tr) = none → c_isupper c = true → sv_strtol tr = some row →
      parse_primary_expr source eb =
        .ok ((expr_buffer_alloc eb).1, rest,
          expr_buffer_set (expr_buffer_alloc eb).2 (expr_buffer_alloc eb).1
            (.cell (size_t_of_long row) (c.toNat - 'A'.toNat)))) ∧
    parse_expr "a1".toList ⟨0, 0, []⟩ = .error .colNotUpper := by
  refine ⟨?_, ?_, ?_, by decide⟩
  · intro source rest eb c tr ht hv hu
    unfold parse_primary_expr
    simp only [ht, hv, hu]
    simp
  · intro source rest eb c tr ht hv hu hrow
    unfold parse_primary_expr
    simp only [ht, hv, hu, hrow]
    simp
  · intro source rest eb c tr row ht hv hu hrow
    unfold parse_primary_expr
    simp only [ht, hv, hu, hrow]
    simp

/-- Witness for C7 at concrete tokens: `"b1"` fails the capital-letter check,
`"A1x"` fails the row-number check, and `"B7"` parses to the cell at row 7,
column 1. -/
theorem cellref_shape_witness :
    parse_primary_expr "b1".toList ⟨0, 0, []⟩ = .error .colNotUpper ∧
    parse_primary_expr "A1x".toList ⟨0, 0, []⟩ = .error .rowNotInt ∧
    parse_primary_expr "B7".toList ⟨0, 0, []⟩ =
      .ok ((expr_buffer_alloc ⟨0, 0, []⟩).1, [],
        expr_buffer_set (expr_buffer_alloc ⟨0, 0, []⟩).2 (expr_buffer_alloc ⟨0, 0, []⟩).1
          (.cell (size_t_of_long 7) ('B'.toNat - 'A'.toNat))) :=
  ⟨cellref_shape.1 "b1".toList [] ⟨0, 0, []⟩ 'b' ['1'] (by decide) (by decide) (by decide),
   cellref_shape.2.1 "A1x".toList [] ⟨0, 0, []⟩ 'A' ['1', 'x'] (by decide) (by decide)
     (by decide) (by decide),
   cellref_shape.2.2.1 "B7".toList [] ⟨0, 0, []⟩ 'B' ['7'] 7 (by decide) (by decide)
     (by decide) (by decide)⟩

/-- Claim C9: empty-formula rejection — when no token is available where a
primary expression is expected (the formula is empty or all whitespace, or
the input ends right after a `+`), parsing fails with the fatal
expected-expression-found-end-of-input error. -/
theorem empty_formula_rejected :
    (∀ (source rest : List Char) (eb : Expr_Buffer),
      next_token source = .ok (none, rest) →
      parse_primary_expr source eb = .error .eofError) ∧
    (∀ (source rest : List Char) (eb : Expr_Buffer),
      next_token source = .ok (none, rest) →
      parse_expr source eb = .error .eofError) ∧
    (∀ (source s1 s2 rest2 : List Char) (eb eb1 : Expr_Buffer) (lhs : Expr_Index),
      parse_primary_expr source eb = .ok (lhs, s1, eb1) →
      next_token s1 = .ok (some ['+'], s2) →
      next_token s2 = .ok (none, rest2) →
      parse_expr source eb = .error .eofError) ∧
    parse_expr "   ".toList ⟨0, 0, []⟩ = .error .eofError ∧
    parse_expr "1+".toList ⟨0, 0, []⟩ = .error .eofError := by
  have hprim : ∀ (source rest : List Char) (eb : Expr_Buffer),
      next_token source = .ok (none, rest) →
      parse_primary_expr source eb = .error .eofError := by
    intro source rest eb ht
    unfold parse_primary_expr
    simp only [ht]
  have hplus : ∀ (source rest : List Char) (eb : Expr_Buffer),
      next_token source = .ok (none, rest) →
      parse_plus_expr source eb = .error .eofError := by
    intro source rest eb ht
    rw [parse_plus_expr_eq]
    simp only [hprim source rest eb ht]
  refine ⟨hprim, ?_, ?_, by decide, by decide⟩
  · intro source rest eb ht
    unfold parse_expr
    exact hplus source rest eb ht
  · intro source s1 s2 rest2 eb eb1 lhs hp hnx hn2
    unfold parse_expr
    rw [parse_plus_expr_eq]
    simp only [hp, hnx, hplus s2 rest2 eb1 hn2]
    simp

/-- Witness for C9 at concrete inputs: the empty formula and a formula ending
right after `+` both fail with the end-of-input syntax error. -/
theorem empty_formula_rejected_witness :
    parse_primary_expr ([] : List Char) ⟨0, 0, []⟩ = .error .eofError ∧
    parse_expr "A0+".toList ⟨0, 0, []⟩ = .error .eofError :=
  ⟨empty_formula_rejected.1 [] [] ⟨0, 0, []⟩ (by decide),
   empty_formula_rejected.2.2.1 "A0+".toList ['+'] [] [] ⟨0, 0, []⟩
     (expr_buffer_set (expr_buffer_alloc ⟨0, 0, []⟩).2 0 (Expr.cell 0 0)) 0
     (by decide) (by decide) (by decide)⟩

unseal Rat.add Rat.mul Rat.inv in
/-- Claim C10: trailing token silently dropped — when a valid primary is
followed by a well-formed token other than `+`, `parse_plus_expr` (and so
the parser entry point) succeeds with the primary's index alone, the
cursor already moved past the inspected token, which is discarded without
error; input beyond it is never examined. Concretely, `"1 2"` parses to
just the number 1 with a single allocated node. -/
theorem trailing_token_dropped :
    (∀ (source s1 s2 : List Char) (eb eb1 : Expr_Buffer) (lhs : Expr_Index)
      (tok : List Char),
      parse_primary_expr source eb = .ok (lhs, s1, eb1) →
      next_token s1 = .ok (some tok, s2) → tok ≠ ['+'] →
      parse_expr source eb = .ok (lhs, s2, eb1)) ∧
    (parse_expr "1 2".toList ⟨0, 0, []⟩).map (fun p => (p.1, p.2.1)) = .ok (0, []) ∧
    (parsedArena "1 2".toList).count = 1 ∧
    expr_buffer_at (parsedArena "1 2".toList) 0 = some (.number 1) := by
  refine ⟨?_, ?_, ?_, ?_⟩
  · intro source s1 s2 eb eb1 lhs tok hp hnx htok
    unfold parse_expr
    rw [parse_plus_expr_eq]
    simp only [hp, hnx]
    rw [if_neg]
    simp only [Option.some.injEq]
    exact htok
  · decide
  · decide
  · decide

/-- Witness for C10: `"A0 B1"` parses to the `A0` reference alone; the `B1`
token is consumed and dropped. -/
theorem trailing_token_dropped_witness :
    parse_expr "A0 B1".toList ⟨0, 0, []⟩ =
      .ok (0, [], expr_buffer_set (expr_buffer_alloc ⟨0, 0, []⟩).2 0 (Expr.cell 0 0)) :=
  trailing_token_dropped.1 "A0 B1".toList " B1".toList [] ⟨0, 0, []⟩
    (expr_buffer_set (expr_buffer_alloc ⟨0, 0, []⟩).2 0 (Expr.cell 0 0)) 0 ['B', '1']
    (by decide) (by decide) (by decide)

unseal Rat.add Rat.mul Rat.inv in
/-- Claim C4: right-associative plus-parsing — after one primary, exactly when
the next token is `+` the remainder is recursively parsed as a plus
expression and the two sides combine into a fresh `Add` node whose right
operand is the recursive result; otherwise the primary alone is returned.
Hence `"1+2+3"` parses to `Add(1, Add(2, 3))` (root node 4 referencing
number node 0 and node 3 = `Add` of number nodes 1 and 2), which evaluates
to 6. -/
theorem parse_plus_right_associative :
    (∀ (source s1 s2 s3 : List Char) (eb eb1 eb2 : Expr_Buffer)
      (lhs rhs : Expr_Index),
      parse_primary_expr source eb = .ok (lhs, s1, eb1) →
      next_token s1 = .ok (some ['+'], s2) →
      parse_plus_expr s2 eb1 = .ok (rhs, s3, eb2) →
      parse_plus_expr source eb =
        .ok ((expr_buffer_alloc eb2).1, s3,
          expr_buffer_set (expr_buffer_alloc eb2).2 (expr_buffer_alloc eb2).1
            (.plus lhs rhs))) ∧
    (∀ (source s1 s2 : List Char) (eb eb1 : Expr_Buffer) (lhs : Expr_Index)
      (tok : Option (List Char)),
      parse_primary_expr source eb = .ok (lhs, s1, eb1) →
      next_token s1 = .ok (tok, s2) → tok ≠ some ['+'] →
      parse_plus_expr source eb = .ok (lhs, s2, eb1)) ∧
    parsedRoot "1+2+3".toList = 4 ∧
    expr_buffer_at (parsedArena "1+2+3".toList) 4 = some (.plus 0 3) ∧
    expr_buffer_at (parsedArena "1+2+3".toList) 0 = some (.number 1) ∧
    expr_buffer_at (parsedArena "1+2+3".toList) 3 = some (.plus 1 2) ∧
    expr_buffer_at (parsedArena "1+2+3".toList) 1 = some (.number 2) ∧
    expr_buffer_at (parsedArena "1+2+3".toList) 2 = some (.number 3) ∧
    (table_eval_expr 10 ⟨[], 0, 0⟩ (parsedArena "1+2+3".toList)
      (parsedRoot "1+2+3".toList)).map Prod.fst = .ok 6 := by
  refine ⟨?_, ?_, by decide, by decide, by decide, by decide, by decide, by decide, by decide⟩
  · intro source s1 s2 s3 eb eb1 eb2 lhs rhs hp hnx hrec
    rw [parse_plus_expr_eq]
    simp only [hp, hnx, hrec]
    simp
  · intro source s1 s2 eb eb1 lhs tok hp hnx htok
    rw [parse_plus_expr_eq]
    simp only [hp, hnx]
    rw [if_neg htok]

/-- Buffer after parsing the primary `1` of `"1+A0"` (for the C4 witness). -/
def ebW0 : Expr_Buffer :=
  match parse_primary_expr "1+A0".toList ⟨0, 0, []⟩ with
  | .ok (_, _, eb) => eb
  | .error _ => ⟨0, 0, []⟩

/-- Buffer after also parsing the remainder `A0` (for the C4 witness). -/
def ebW2 : Expr_Buffer :=
  match parse_plus_expr "A0".toList ebW0 with
  | .ok (_, _, eb) => eb
  | .error _ => ⟨0, 0, []⟩

/-- Buffer holding the single parsed `A0` reference (for the C4 witness). -/
def ebW1 : Expr_Buffer :=
  expr_buffer_set (expr_buffer_alloc ⟨0, 0, []⟩).2 0 (Expr.cell 0 0)

unseal Rat.add Rat.mul Rat.inv in
/-- Witness for C4: parsing `"1+A0"` builds the `Add` node combining the
number-1 node with the recursively parsed `A0` reference, and `"A0 x"`
returns the primary alone when the next token is not `+`. -/
theorem parse_plus_right_associative_witness :
    parse_plus_expr "1+A0".toList ⟨0, 0, []⟩ =
      .ok ((expr_buffer_alloc ebW2).1, [],
        expr_buffer_set (expr_buffer_alloc ebW2).2 (expr_buffer_alloc ebW2).1
          (.plus 0 1)) ∧
    parse_plus_expr "A0 x".toList ⟨0, 0, []⟩ = .ok (0, [], ebW1) :=
  ⟨parse_plus_right_associative.1 "1+A0".toList "+A0".toList "A0".toList [] ⟨0, 0, []⟩
     ebW0 ebW2 0 1 (by decide) (by decide) (by decide),
   parse_plus_right_associative.2.1 "A0 x".toList " x".toList [] ⟨0, 0, []⟩ ebW1 0
     (some ['x']) (by decide) (by decide) (by decide)⟩

/-- Arena holding the two parsed formulas of the cyclic table: node 0 is the
reference `B0` (cell A0's formula body) and node 1 the reference `A0`
(cell B0's formula body). -/
def cycleArena : Expr_Buffer :=
  match parse_expr "A0".toList (parsedArena "B0".toList) with
  | .ok (_, _, eb) => eb
  | .error _ => ⟨0, 0, []⟩

/-- Root of cell A0's formula `=B0` in `cycleArena`. -/
def cycleRootA : Expr_Index := parsedRoot "B0".toList

/-- Root of cell B0's formula `=A0` in `cycleArena`. -/
def cycleRootB : Expr_Index :=
  match parse_expr "A0".toList (parsedArena "B0".toList) with
  | .ok (i, _, _) => i
  | .error _ => 0

/-- Table in which A0's formula references B0 and B0's references A0. -/
def cycleTable : Table :=
  ⟨[Cell.expr cycleRootA .unevaluated 0, Cell.expr cycleRootB .unevaluated 0], 1, 2⟩

/-- Claim C1: cycle detection — whenever `table_eval_cell` reaches a formula
cell whose status is `INPROGRESS`, it fails with the fatal
circular-dependency error; in particular, on the table where A0's formula
references B0 and B0's references A0, evaluating A0 reports the
circular-dependency error for every sufficient recursion budget (it
neither diverges with growing budget nor returns a default value). -/
theorem circular_dependency_detected :
    (∀ (fuel : Nat) (t : Table) (eb : Expr_Buffer) (r c : Nat) (i : Expr_Index)
      (v : Rat), table_cell_at t r c = some (.expr i .inprogress v) →
      table_eval_cell (fuel + 1) t eb r c = .error .circularDep) ∧
    (∀ fuel : Nat, table_eval_cell (fuel + 1 + 1 + 1 + 1 + 1) cycleTable cycleArena 0 0 =
      .error .circularDep) := by
  have hstop : ∀ (fuel : Nat) (t : Table) (eb : Expr_Buffer) (r c : Nat)
      (i : Expr_Index) (v : Rat), table_cell_at t r c = some (.expr i .inprogress v) →
      table_eval_cell (fuel + 1) t eb r c = .error .circularDep := by
    intro fuel t eb r c i v hc
    unfold table_eval_cell
    simp only [hc]
  refine ⟨hstop, ?_⟩
  intro fuel
  have h1 : table_cell_at cycleTable 0 0 = some (.expr cycleRootA .unevaluated 0) := by
    decide
  have h2 : expr_buffer_at cycleArena cycleRootA = some (.cell 0 1) := by decide
  have h3 : table_cell_at
      (table_set_cell cycleTable 0 0 (Cell.expr cycleRootA .inprogress 0)) 0 1 =
      some (.expr cycleRootB .unevaluated 0) := by decide
  have h4 : expr_buffer_at cycleArena cycleRootB = some (.cell 0 0) := by decide
  have h5 : table_cell_at
      (table_set_cell (table_set_cell cycleTable 0 0 (Cell.expr cycleRootA .inprogress 0))
        0 1 (Cell.expr cycleRootB .inprogress 0)) 0 0 =
      some (.expr cycleRootA .inprogress 0) := by decide
  simp only [table_eval_cell, table_eval_expr, h1, h2, h3, h4, h5]

/-- Witness for C1: evaluating a formula cell already marked `INPROGRESS` is
the circular-dependency error. -/
theorem circular_dependency_detected_witness :
    table_eval_cell 1 ⟨[Cell.expr 0 .inprogress 0], 1, 1⟩ ⟨0, 0, []⟩ 0 0 =
      .error .circularDep :=
  circular_dependency_detected.1 0 ⟨[Cell.expr 0 .inprogress 0], 1, 1⟩ ⟨0, 0, []⟩
    0 0 0 0 (by decide)

/-- Arena of the one-formula table with `A0 = 10` and `B0 = "=A0+5"`. -/
def b0Arena : Expr_Buffer := parsedArena "A0+5".toList

/-- Root of the parsed formula body `A0+5`. -/
def b0Root : Expr_Index := parsedRoot "A0+5".toList

/-- Table with `A0 = 10` (number) and `B0 = "=A0+5"` (formula, unevaluated). -/
def b0Table : Table := ⟨[Cell.number 10, Cell.expr b0Root .unevaluated 0], 1, 2⟩

unseal Rat.add Rat.mul Rat.inv in
/-- Claim C3: evaluator correctness — `table_eval_expr` returns the stored
value of a `Number` node, the sum of recursively evaluating the left then
the right operand of an `Add` node (threading the table state), the stored
value of a `Number` cell a `CellRef` resolves to, and, for a `CellRef`
resolving to a `Formula` cell, the value cached after delegating to
`table_eval_cell`; with `A0 = 10` and `B0 = "=A0+5"`, evaluating `B0`
yields the cached value 15. -/
theorem table_eval_expr_correct :
    (∀ (fuel : Nat) (t : Table) (eb : Expr_Buffer) (i : Expr_Index) (v : Rat),
      expr_buffer_at eb i = some (.number v) →
      table_eval_expr (fuel + 1) t eb i = .ok (v, t)) ∧
    (∀ (fuel : Nat) (t t1 t2 : Table) (eb : Expr_Buffer) (i l r : Expr_Index)
      (a b : Rat),
      expr_buffer_at eb i = some (.plus l r) →
      table_eval_expr fuel t eb l = .ok (a, t1) →
      table_eval_expr fuel t1 eb r = .ok (b, t2) →
      table_eval_expr (fuel + 1) t eb i = .ok (a + b, t2)) ∧
    (∀ (fuel : Nat) (t : Table) (eb : Expr_Buffer) (i : Expr_Index) (r c : Nat)
      (v : Rat),
      expr_buffer_at eb i = some (.cell r c) →
      table_cell_at t r c = some (.number v) →
      table_eval_expr (fuel + 1) t eb i = .ok (v, t)) ∧
    (∀ (fuel : Nat) (t t' : Table) (eb : Expr_Buffer) (i : Expr_Index) (r c : Nat)
      (j j' : Expr_Index) (s s' : Eval_Status) (w v : Rat),
      expr_buffer_at eb i = some (.cell r c) →
      table_cell_at t r c = some (.expr j s w) →
      table_eval_cell fuel t eb r c = .ok t' →
      table_cell_at t' r c = some (.expr j' s' v) →
      table_eval_expr (fuel + 1) t eb i = .ok (v, t')) ∧
    table_eval_cell 10 b0Table b0Arena 0 1 =
      .ok ⟨[Cell.number 10, Cell.expr b0Root .evaluated 15], 1, 2⟩ := by
  refine ⟨?_, ?_, ?_, ?_, by decide⟩
  · intro fuel t eb i v hi
    unfold table_eval_expr
    simp only [hi]
  · intro fuel t t1 t2 eb i l r a b hi hl hr
    unfold table_eval_expr
    simp only [hi, hl, hr]
  · intro fuel t eb i r c v hi hc
    unfold table_eval_expr
    simp only [hi, hc]
  · intro fuel t t' eb i r c j j' s s' w v hi hc he hc'
    unfold table_eval_expr
    simp only [hi, hc, he, hc']

/-- Witness for C3 at tiny tables: a number node, a sum, a reference to a
number cell, and a reference to an already-evaluated formula cell. -/
theorem table_eval_expr_correct_witness :
    table_eval_expr 1 ⟨[], 0, 0⟩ ⟨1, 1, [some (Expr.number 7)]⟩ 0 = .ok (7, ⟨[], 0, 0⟩) ∧
    table_eval_expr 2 ⟨[], 0, 0⟩
      ⟨3, 3, [some (Expr.number 7), some (Expr.number 2), some (Expr.plus 0 1)]⟩ 2 =
      .ok (7 + 2, ⟨[], 0, 0⟩) ∧
    table_eval_expr 1 ⟨[Cell.number 3], 1, 1⟩ ⟨1, 1, [some (Expr.cell 0 0)]⟩ 0 =
      .ok (3, ⟨[Cell.number 3], 1, 1⟩) ∧
    table_eval_expr 2 ⟨[Cell.expr 1 .evaluated 9], 1, 1⟩
      ⟨2, 2, [some (Expr.cell 0 0), some (Expr.number 9)]⟩ 0 =
      .ok (9, ⟨[Cell.expr 1 .evaluated 9], 1, 1⟩) :=
  ⟨table_eval_expr_correct.1 0 ⟨[], 0, 0⟩ ⟨1, 1, [some (Expr.number 7)]⟩ 0 7 (by decide),
   table_eval_expr_correct.2.1 1 ⟨[], 0, 0⟩ ⟨[], 0, 0⟩ ⟨[], 0, 0⟩
     ⟨3, 3, [some (Expr.number 7), some (Expr.number 2), some (Expr.plus 0 1)]⟩ 2 0 1 7 2
     (by decide) (by decide) (by decide),
   table_eval_expr_correct.2.2.1 0 ⟨[Cell.number 3], 1, 1⟩
     ⟨1, 1, [some (Expr.cell 0 0)]⟩ 0 0 0 3 (by decide) (by decide),
   table_eval_expr_correct.2.2.2.1 1 ⟨[Cell.expr 1 .evaluated 9], 1, 1⟩
     ⟨[Cell.expr 1 .evaluated 9], 1, 1⟩ ⟨2, 2, [some (Expr.cell 0 0), some (Expr.number 9)]⟩
     0 0 0 1 1 .evaluated .evaluated 9 9 (by decide) (by decide) (by decide) (by decide)⟩

theorem table_cell_at_some_lt (t : Table) (r c : Nat) (cell : Cell)
    (h : table_cell_at t r c = some cell) :
    r < t.rows ∧ c < t.cols ∧ r * t.cols + c < t.cells.length := by
  unfold table_cell_at at h
  by_cases hb : r < t.rows ∧ c < t.cols
  · rw [if_pos hb] at h
    refine ⟨hb.1, hb.2, ?_⟩
    by_cases hl : r * t.cols + c < t.cells.length
    · exact hl
    · rw [List.get?_eq_getElem?, List.getElem?_eq_none (by omega)] at h
      exact absurd h (by simp)
  · rw [if_neg hb] at h
    exact absurd h (by simp)

theorem table_cell_at_set_self (t : Table) (r c : Nat) (cell : Cell)
    (hr : r < t.rows) (hc : c < t.cols) (hl : r * t.cols + c < t.cells.length) :
    table_cell_at (table_set_cell t r c cell) r c = some cell := by
  unfold table_cell_at table_set_cell
  simp only [hr, hc, and_self, if_true]
  rw [List.get?_eq_getElem?]
  exact List.getElem?_set_self (by simpa using hl)

/-- Arena holding the parsed formulas of the fan-in chain: `A0+A0` (cell B0's
body, root `chainRootB`) and `B0+B0` (cell C0's body, root `chainRootC`). -/
def chainArena : Expr_Buffer :=
  match parse_expr "B0+B0".toList (parsedArena "A0+A0".toList) with
  | .ok (_, _, eb) => eb
  | .error _ => ⟨0, 0, []⟩

/-- Root of cell B0's formula body `A0+A0` in `chainArena`. -/
def chainRootB : Expr_Index := parsedRoot "A0+A0".toList

/-- Root of cell C0's formula body `B0+B0` in `chainArena`. -/
def chainRootC : Expr_Index :=
  match parse_expr "B0+B0".toList (parsedArena "A0+A0".toList) with
  | .ok (i, _, _) => i
  | .error _ => 0

/-- Table with `A0 = 1`, `B0 = "=A0+A0"`, `C0 = "=B0+B0"`, before evaluation. -/
def chainTable : Table :=
  ⟨[Cell.number 1, Cell.expr chainRootB .unevaluated 0,
    Cell.expr chainRootC .unevaluated 0], 1, 3⟩

/-- The chain table after evaluating C0: B0 caches 2 and C0 caches 4. -/
def chainResult : Table :=
  ⟨[Cell.number 1, Cell.expr chainRootB .evaluated 2,
    Cell.expr chainRootC .evaluated 4], 1, 3⟩

unseal Rat.add Rat.mul Rat.inv in
/-- Claim C2: memoization and idempotence — a call on a formula cell whose
status is `EVALUATED` is a no-op returning the table (and so the cached
value) unchanged with no re-evaluation of the cell's expression; every
successful call leaves the cell's status `EVALUATED` with its index
intact; hence after a first successful call every later call is such a
no-op and each formula cell's expression is evaluated at most once. With
`A0 = 1`, `B0 = "=A0+A0"`, `C0 = "=B0+B0"`, evaluating C0 caches 4 at C0
and 2 at B0, and re-evaluating C0 returns the same table unchanged. -/
theorem eval_cell_memoized_idempotent :
    (∀ (fuel : Nat) (t : Table) (eb : Expr_Buffer) (r c : Nat) (i : Expr_Index)
      (v : Rat), table_cell_at t r c = some (.expr i .evaluated v) →
      table_eval_cell (fuel + 1) t eb r c = .ok t) ∧
    (∀ (fuel : Nat) (t t' : Table) (eb : Expr_Buffer) (r c : Nat) (i : Expr_Index)
      (s : Eval_Status) (v : Rat), table_cell_at t r c = some (.expr i s v) →
      table_eval_cell fuel t eb r c = .ok t' →
      ∃ v', table_cell_at t' r c = some (.expr i .evaluated v')) ∧
    (∀ (fuel fuel' : Nat) (t t' : Table) (eb : Expr_Buffer) (r c : Nat)
      (i : Expr_Index) (s : Eval_Status) (v : Rat),
      table_cell_at t r c = some (.expr i s v) →
      table_eval_cell fuel t eb r c = .ok t' →
      table_eval_cell (fuel' + 1) t' eb r c = .ok t') ∧
    (table_eval_cell 10 chainTable chainArena 0 2 = .ok chainResult ∧
     table_cell_at chainResult 0 1 = some (.expr chainRootB .evaluated 2) ∧
     table_cell_at chainResult 0 2 = some (.expr chainRootC .evaluated 4) ∧
     table_eval_cell 10 chainResult chainArena 0 2 = .ok chainResult) := by
  have hnoop : ∀ (fuel : Nat) (t : Table) (eb : Expr_Buffer) (r c : Nat)
      (i : Expr_Index) (v : Rat), table_cell_at t r c = some (.expr i .evaluated v) →
      table_eval_cell (fuel + 1) t eb r c = .ok t := by
    intro fuel t eb r c i v hc
    unfold table_eval_cell
    simp only [hc]
  have hdone : ∀ (fuel : Nat) (t t' : Table) (eb : Expr_Buffer) (r c : Nat)
      (i : Expr_Index) (s : Eval_Status) (v : Rat),
      table_cell_at t r c = some (.expr i s v) →
      table_eval_cell fuel t eb r c = .ok t' →
      ∃ v', table_cell_at t' r c = some (.expr i .evaluated v') := by
    intro fuel t t' eb r c i s v hc he
    cases fuel with
    | zero => exact absurd he (by simp [table_eval_cell])
    | succ fuel =>
      cases s with
      | inprogress =>
        have hx : table_eval_cell (fuel + 1) t eb r c = .error .circularDep := by
          unfold table_eval_cell; simp only [hc]
        rw [hx] at he
        exact absurd he (by simp)
      | evaluated =>
        have hx : table_eval_cell (fuel + 1) t eb r c = .ok t := by
          unfold table_eval_cell; simp only [hc]
        rw [hx] at he
        have ht : t = t' := by simpa using he
        subst ht
        exact ⟨v, hc⟩
      | unevaluated =>
        have hx : table_eval_cell (fuel + 1) t eb r c =
            match table_eval_expr fuel (table_set_cell t r c (.expr i .inprogress v))
                eb i with
            | .error e => .error e
            | .ok (res, t2) =>
              .ok (table_set_cell t2 r c (.expr i .evaluated res)) := by
          unfold table_eval_cell; simp only [hc]
        rw [hx] at he
        split at he
        · exact absurd he (by simp)
        · rename_i res t2 heq
          have hteq : table_set_cell t2 r c (.expr i .evaluated res) = t' := by
            simpa using he
          have hb := table_cell_at_some_lt t r c _ hc
          have hsh := (eval_preserves_shape fuel).1 _ eb i res t2 heq
          refine ⟨res, ?_⟩
          rw [← hteq]
          refine table_cell_at_set_self t2 r c _ ?_ ?_ ?_
          · rw [hsh.1, table_set_cell_rows]; exact hb.1
          · rw [hsh.2.1, table_set_cell_cols]; exact hb.2.1
          · rw [hsh.2.2, table_set_cell_length, hsh.2.1, table_set_cell_cols]
            exact hb.2.2
  refine ⟨hnoop, hdone, ?_, by decide, by decide, by decide, by decide⟩
  intro fuel fuel' t t' eb r c i s v hc he
  obtain ⟨v', hc'⟩ := hdone fuel t t' eb r c i s v hc he
  exact hnoop fuel' t' eb r c i v' hc'

/-- Witness for C2: re-evaluating an already-evaluated formula cell returns
the table unchanged. -/
theorem eval_cell_memoized_idempotent_witness :
    table_eval_cell 1 ⟨[Cell.expr 0 .evaluated 5], 1, 1⟩ ⟨0, 0, []⟩ 0 0 =
      .ok ⟨[Cell.expr 0 .evaluated 5], 1, 1⟩ :=
  eval_cell_memoized_idempotent.1 0 ⟨[Cell.expr 0 .evaluated 5], 1, 1⟩ ⟨0, 0, []⟩
    0 0 0 5 (by decide)
